import Mathlib

/-!
Shallow embedding of the fenix kernel core: the L2 page subsystem
(src/kernel/src/internals/mmu/l2.rs and src/src/internals/mmu/l2.rs),
the task table and scheduler (src/kernel/src/internals/tasks.rs), and the
syscall dispatcher (src/kernel/src/kernel.rs).  Machine integers are
modelled as Nat; MMIO and inline assembly (barriers, TLB maintenance,
the ASID system register) have no architectural effect on the kernel
data structures modelled here and are omitted.
-/

namespace Fenix

/-! ## Constants (from the Rust sources) -/

def MAX_TASKS : Nat := 4
def STACK_GUARD : Nat := 1024
def BASE_ADDRESS : Nat := 0x40300000
def PAGE_SIZE_BITS : Nat := 12
def PAGE_SIZE : Nat := 0x1000
def PAGE_TABLE_SIZE : Nat := 256
def L2_FAULT_PAGE_TABLE_ENTRY : Nat := 0

/-! ## L2 page table entries (l2.rs) -/

inductive AccessPermissions where
  | Full
deriving DecidableEq

/-- From impl From of AccessPermissions for u32. -/
def AccessPermissions.toWord : AccessPermissions → Nat
  | .Full => 0b11 <<< 4

structure L2SmallPageTableEntry where
  asid : Option Nat
  virtual_address : Nat
  physical_address : Nat
  permissions : AccessPermissions
deriving DecidableEq

namespace L2SmallPageTableEntry

/-- L2SmallPageTableEntry::empty. -/
def empty : L2SmallPageTableEntry :=
  { asid := none, virtual_address := 0, physical_address := 0,
    permissions := .Full }

/-- L2SmallPageTableEntry::start. -/
def start (e : L2SmallPageTableEntry) : Nat := e.virtual_address

/-- L2SmallPageTableEntry::end (end is a Lean keyword, hence endAddr). -/
def endAddr (e : L2SmallPageTableEntry) : Nat :=
  e.virtual_address + PAGE_SIZE - 4

/-- impl From of an entry for u32: the small-page descriptor word. -/
def toWord (e : L2SmallPageTableEntry) : Nat :=
  e.physical_address ||| (if e.asid.isSome then 1 else 0) <<< 11 |||
    e.permissions.toWord ||| 0b10

/-- Index of the L2 slot written by register/unregister. -/
def vaIndex (e : L2SmallPageTableEntry) : Nat :=
  e.virtual_address >>> PAGE_SIZE_BITS

/-- Index of the used_pages bit cleared by unregister. -/
def frameIndex (e : L2SmallPageTableEntry) : Nat :=
  (e.physical_address - BASE_ADDRESS) >>> PAGE_SIZE_BITS

end L2SmallPageTableEntry

/-- The mutable page-table state: the LEVEL2_PAGE_TABLE word array and the
USED_PAGES bitmap (both statics in l2.rs), as total maps on Nat whose
meaningful indices are 0..255. -/
@[ext]
structure PageState where
  level2 : Nat → Nat
  used_pages : Nat → Bool

/-- Both statics start zeroed / all-free. -/
def initPageState : PageState :=
  { level2 := fun _ => L2_FAULT_PAGE_TABLE_ENTRY, used_pages := fun _ => false }

/-- Rust iterator (start..start+fuel).find(p), unrolled with explicit fuel. -/
def findIdx (p : Nat → Bool) : Nat → Nat → Option Nat
  | _, 0 => none
  | i, fuel + 1 => if p i then some i else findIdx p (i + 1) fuel

/-- L2SmallPageTableEntry::try_new (src/src/internals/mmu/l2.rs): linear scan
of USED_PAGES for the first free index, mark it used, hand out physical frame
BASE_ADDRESS + (index shifted by PAGE_SIZE_BITS), virtual address 0, the
supplied ASID and full access permissions. -/
def L2SmallPageTableEntry.try_new (asid : Option Nat) (s : PageState) :
    Option (L2SmallPageTableEntry × PageState) :=
  match findIdx (fun i => !s.used_pages i) 0 PAGE_TABLE_SIZE with
  | none => none
  | some current_index =>
    some ({ asid := asid,
            virtual_address := 0,
            physical_address := BASE_ADDRESS + (current_index <<< PAGE_SIZE_BITS),
            permissions := .Full },
          { s with used_pages := Function.update s.used_pages current_index true })

/-- L2SmallPageTableEntry::register: store the descriptor word at L2 index
virtual_address shifted down by PAGE_SIZE_BITS.  (set_asid and the dsb/isb
barriers touch no modelled state.) -/
def L2SmallPageTableEntry.register (e : L2SmallPageTableEntry) (s : PageState) :
    PageState :=
  { s with level2 := Function.update s.level2 e.vaIndex e.toWord }

/-- L2SmallPageTableEntry::unregister: reset the L2 slot to the fault entry
and clear the used bit of the entry's physical frame.  (invalidate_tlb
touches no modelled state.) -/
def L2SmallPageTableEntry.unregister (e : L2SmallPageTableEntry) (s : PageState) :
    PageState :=
  { level2 := Function.update s.level2 e.vaIndex L2_FAULT_PAGE_TABLE_ENTRY,
    used_pages := Function.update s.used_pages e.frameIndex false }

/-- A word is a non-fault small-page entry when its low two bits are 0b10
(ARMv7 short-descriptor small page; the fault entry is 0). -/
def isSmallPage (w : Nat) : Bool := w % 4 == 2

/-- Reachability of a page-subsystem state under any sequence of try_new,
register and unregister operations, tracking the handles the subsystem has
issued (register/unregister are only ever called on issued handles). -/
inductive PageReachable : PageState → List L2SmallPageTableEntry → Prop where
  | init : PageReachable initPageState []
  | tryNew {s hs h s'} (a : Option Nat) :
      PageReachable s hs → L2SmallPageTableEntry.try_new a s = some (h, s') →
      PageReachable s' (h :: hs)
  | reg {s hs h} :
      PageReachable s hs → h ∈ hs → PageReachable (h.register s) hs
  | unreg {s hs h} :
      PageReachable s hs → h ∈ hs → PageReachable (h.unregister s) hs

/-! ## Tasks and scheduler (src/kernel/src/internals/tasks.rs) -/

inductive TaskState where
  | Ready
  | Running
  | Terminated
  | Waiting (until_ : Nat)
  | Stored
deriving DecidableEq

structure TaskContext where
  sp : Nat
  pc : Nat
deriving DecidableEq

/-- shared/src/alloc/heap.rs BumpAllocator; the Mutex wrapper around next
has no effect in this single-thread model. -/
structure BumpAllocator where
  heap_start : Nat
  heap_end : Nat
  next : Nat
deriving DecidableEq

namespace BumpAllocator

def new : BumpAllocator := { heap_start := 0, heap_end := 0, next := 0 }

/-- BumpAllocator::init. -/
def init (_a : BumpAllocator) (s e : Nat) : BumpAllocator :=
  { heap_start := s, heap_end := e, next := s }

/-- align_up on 32-bit usize. -/
def align_up (addr align : Nat) : Nat :=
  ((addr + align - 1) % 2 ^ 32) &&& ((2 ^ 32 - 1) ^^^ ((align - 1) % 2 ^ 32))

/-- BumpAllocator::alloc: returns (pointer, updated allocator); the null
pointer is 0. -/
def alloc (a : BumpAllocator) (size align : Nat) : Nat × BumpAllocator :=
  let alloc_start := align_up a.next align
  let alloc_end := min (alloc_start + size) (2 ^ 32 - 1)
  if alloc_end > a.heap_end then (0, a)
  else (alloc_start, { a with next := alloc_end })

/-- BumpAllocator::dealloc is a no-op. -/
def dealloc (a : BumpAllocator) (_ptr _size _align : Nat) : BumpAllocator := a

end BumpAllocator

structure Task where
  id : Nat
  state : TaskState
  context : TaskContext
  allocator : BumpAllocator
  page : L2SmallPageTableEntry
deriving DecidableEq

namespace Task

/-- Task::empty. -/
def empty : Task :=
  { id := 0, state := .Terminated, context := { sp := 0, pc := 0 },
    allocator := .new, page := .empty }

/-- Task::executable, with millis() passed in as now.  Returns the Bool
result together with the (possibly promoted) task, since the Rust method
mutates self when a Waiting task whose deadline has passed is promoted to
Stored. -/
def executable (now : Nat) (t : Task) : Bool × Task :=
  match t.state with
  | .Ready => (true, t)
  | .Stored => (true, t)
  | .Waiting until_ =>
    if now ≥ until_ then (true, { t with state := .Stored }) else (false, t)
  | _ => (false, t)

end Task

/-- The executability test of Task::executable as a pure predicate on the
unmodified task. -/
def execPred (now : Nat) (t : Task) : Bool :=
  match t.state with
  | .Ready => true
  | .Stored => true
  | .Waiting until_ => now ≥ until_
  | _ => false

/-- The task table and current_index; tasks is a total map whose meaningful
indices are 0..MAX_TASKS-1 (the Rust array of UnsafeCell slots). -/
structure Scheduler where
  tasks : Nat → Task
  current_index : Option Nat

namespace Scheduler

/-- Scheduler state after Scheduler::new plus Scheduler::init (which writes
each slot's id). -/
def afterInit : Scheduler :=
  { tasks := fun i => { Task.empty with id := i }, current_index := none }

/-- Scheduler::current: the task at current_index, filtered to state
Running; modelled as the index of that task. -/
def currentIdx (s : Scheduler) : Option Nat :=
  match s.current_index with
  | none => none
  | some i => if (s.tasks i).state = .Running then some i else none

/-- Scheduler::cycle. -/
def cycle (s : Scheduler) : Scheduler :=
  { s with current_index := s.current_index.map fun i => (i + 1) % MAX_TASKS }

/-- The loop body of Scheduler::task_with_state: check index, else advance
by one mod MAX_TASKS and stop when back at initial.  fuel bounds the
number of checks; MAX_TASKS suffices when the indices stay below
MAX_TASKS. -/
def taskWithStateLoop (s : Scheduler) (target : TaskState) :
    Nat → Nat → Nat → Option Nat
  | _, _, 0 => none
  | index, initial, fuel + 1 =>
    if (s.tasks index).state = target then some index
    else
      let index' := (index + 1) % MAX_TASKS
      if index' = initial then none else taskWithStateLoop s target index' initial fuel

/-- Scheduler::task_with_state, returning the index of the found slot (the
Rust function returns the mutable task reference living at that index). -/
def task_with_state (s : Scheduler) (target : TaskState) : Option Nat :=
  let initial_index := s.current_index.getD 0
  taskWithStateLoop s target initial_index initial_index MAX_TASKS

/-- The loop body of Scheduler::next_task: run executable (which may promote
the checked task) on index, else advance by one mod MAX_TASKS, stopping when
back at initial. -/
def nextTaskLoop (now : Nat) (s : Scheduler) : Nat → Nat → Nat → Option (Nat × Scheduler)
  | _, _, 0 => none
  | index, initial, fuel + 1 =>
    match Task.executable now (s.tasks index) with
    | (ok, t') =>
      if ok then some (index, { s with tasks := Function.update s.tasks index t' })
      else
        let index' := (index + 1) % MAX_TASKS
        if index' = initial then none else nextTaskLoop now s index' initial fuel

/-- Scheduler::next_task, returning the index of the found task and the
scheduler with that task possibly promoted from Waiting to Stored. -/
def next_task (now : Nat) (s : Scheduler) : Option (Nat × Scheduler) :=
  let initial_index := s.current_index.getD 0
  nextTaskLoop now s initial_index initial_index MAX_TASKS

end Scheduler

/-! ## Whole-kernel state and the syscall dispatcher (src/kernel/src/kernel.rs) -/

/-- The kernel-visible mutable state: the scheduler singleton, the page
subsystem statics, the per-frame contents of user memory (frames i is the
byte list stored in physical frame i; create_task's copy_nonoverlapping of
the program image lands there through the just-registered mapping), and the
GPIO pin states written by the gpio peripheral. -/
structure KernelState where
  sched : Scheduler
  pages : PageState
  frames : Nat → List Nat
  gpio : Nat × Nat → Bool

/-- State when _start reaches the create_task calls: tasks::init done,
page-table statics zeroed, no program copied, pins low. -/
def initKernelState : KernelState :=
  { sched := .afterInit, pages := initPageState,
    frames := fun _ => [], gpio := fun _ => false }

/-- Scheduler::create_task: find a Terminated slot scanning from the current
index, allocate a page with ASID = task_id, register it, copy the code into
the page, then set up state, context and allocator of the slot named by the
found task's id. -/
def createTask (code : List Nat) (k : KernelState) : Option (Nat × KernelState) :=
  match k.sched.task_with_state .Terminated with
  | none => none
  | some slot =>
    let task_id := (k.sched.tasks slot).id
    match L2SmallPageTableEntry.try_new (some task_id) k.pages with
    | none => none
    | some (page, ps) =>
      let ps := page.register ps
      let frames := Function.update k.frames page.frameIndex code
      let t := k.sched.tasks task_id
      let t := { t with
        page := page,
        state := .Ready,
        context := { sp := page.endAddr, pc := page.start },
        allocator := t.allocator.init code.length (page.endAddr - STACK_GUARD) }
      some (t.id,
        { k with
          sched := { k.sched with tasks := Function.update k.sched.tasks task_id t },
          pages := ps, frames := frames })

/-- Scheduler::switch: pick next_task; if some, set current_index to the
picked task's id, and when that slot is Ready or Stored mark it Running,
register its page and hand off to switch_context/restore_context (which
never return: the second component is some id exactly when control was
handed to task id).  When next_task is none, or the slot is in neither
state, switch returns to the kernel loop (second component none). -/
def switchStep (now : Nat) (k : KernelState) : KernelState × Option Nat :=
  match k.sched.next_task now with
  | none => (k, none)
  | some (idx, sched) =>
    let next_task_id := (sched.tasks idx).id
    let sched := { sched with current_index := some next_task_id }
    let t := sched.tasks next_task_id
    match t.state with
    | .Ready =>
      ({ k with
          sched := { sched with
            tasks := Function.update sched.tasks next_task_id { t with state := .Running } },
          pages := t.page.register k.pages }, some next_task_id)
    | .Stored =>
      ({ k with
          sched := { sched with
            tasks := Function.update sched.tasks next_task_id { t with state := .Running } },
          pages := t.page.register k.pages }, some next_task_id)
    | _ => ({ k with sched := sched }, none)

/-- The trap frame handed to swi_handler by the SVC stub. -/
structure TrapFrame where
  r0 : Nat
  r1 : Nat
  r2 : Nat
  r3 : Nat
  r12 : Nat
deriving DecidableEq

/-- shared/src/kernel.rs Syscall (data slices modelled by pointer and
length, layouts by size and align). -/
inductive Syscall where
  | Exit
  | Yield (sp pc : Nat) (until_ : Option Nat)
  | Millis
  | GpioRead (pin : Nat × Nat)
  | GpioWrite (pin : Nat × Nat) (value : Bool)
  | I2cWrite (address : Nat) (dataPtr dataLen : Nat)
  | Panic
  | Alloc (size align : Nat)
  | Dealloc (ptr : Nat) (size align : Nat)
deriving DecidableEq

/-- impl TryInto of Syscall for the trap frame: decode r12; none models the
Err(SyscallError) case. -/
def decodeSyscall (f : TrapFrame) : Option Syscall :=
  match f.r12 with
  | 0 => some .Exit
  | 1 => some (.Yield f.r0 f.r1 (match f.r2 with | 0 => none | u => some u))
  | 2 => some .Millis
  | 3 => some (.GpioRead (f.r1, f.r0))
  | 4 => some (.GpioWrite (f.r1, f.r0) (f.r2 != 0))
  | 5 => some (.I2cWrite (f.r0 % 256) f.r1 f.r2)
  | 6 => some .Panic
  | 7 => some (.Alloc f.r0 f.r1)
  | 8 => some (.Dealloc f.r0 f.r1 f.r2)
  | _ => none

/-- The SyscallReturnValue union, as a tagged sum. -/
inductive SyscallReturnValue where
  | millis (v : Nat)
  | gpio_read (b : Bool)
  | i2c_write (err : Nat)
  | alloc (ptr : Nat)
  | none
deriving DecidableEq

structure SyscallReturn where
  exit : Bool
  value : SyscallReturnValue
deriving DecidableEq

/-- SyscallReturn::exit. -/
def SyscallReturn.mkExit : SyscallReturn := { exit := true, value := .none }

/-- SyscallReturn::value. -/
def SyscallReturn.mkValue (v : SyscallReturnValue) : SyscallReturn :=
  { exit := false, value := v }

/-- SyscallReturn::none. -/
def SyscallReturn.mkNone : SyscallReturn := { exit := false, value := .none }

/-- External inputs read by the dispatcher: the tick counter behind
millis() and the error the interrupt-driven I2C write ends with. -/
structure Env where
  now : Nat
  i2c_result : Nat

/-- Task::terminate on slot i: state becomes Terminated and the task's page
is unregistered. -/
def terminateTask (i : Nat) (k : KernelState) : KernelState :=
  let t := k.sched.tasks i
  { k with
    sched := { k.sched with
      tasks := Function.update k.sched.tasks i { t with state := .Terminated } },
    pages := t.page.unregister k.pages }

/-- swi_handler: decode the trap frame and dispatch.  A decode failure is
panic!("invalid syscall"): the kernel-fatal path, modelled as Except.error
carrying the kernel state at the instant of the panic (nothing has been
modified); the panic handler then disables interrupts and loops forever,
so no value ever reaches the caller. -/
def swi_handler (env : Env) (f : TrapFrame) (k : KernelState) :
    Except KernelState (KernelState × SyscallReturn) :=
  match decodeSyscall f with
  | Option.none => .error k
  | Option.some sc =>
    match sc with
    | .Exit =>
      let k :=
        match k.sched.currentIdx with
        | some i => terminateTask i k
        | none => k
      .ok ({ k with sched := k.sched.cycle }, .mkExit)
    | .Yield sp pc Option.none =>
      let k :=
        match k.sched.currentIdx with
        | some i =>
          let t := k.sched.tasks i
          { k with sched := { k.sched with
              tasks := Function.update k.sched.tasks i
                { t with context := { sp := sp, pc := pc }, state := .Stored } } }
        | none => k
      .ok ({ k with sched := k.sched.cycle }, .mkExit)
    | .Yield sp pc (Option.some until_) =>
      let k :=
        match k.sched.currentIdx with
        | some i =>
          let t := k.sched.tasks i
          { k with sched := { k.sched with
              tasks := Function.update k.sched.tasks i
                { t with context := { sp := sp, pc := pc },
                         state := .Waiting until_ } } }
        | none => k
      .ok ({ k with sched := k.sched.cycle }, .mkExit)
    | .Millis => .ok (k, .mkValue (.millis env.now))
    | .GpioWrite pin value =>
      .ok ({ k with gpio := Function.update k.gpio pin value }, .mkNone)
    | .GpioRead pin => .ok (k, .mkValue (.gpio_read (k.gpio pin)))
    | .I2cWrite _ _ _ => .ok (k, .mkValue (.i2c_write env.i2c_result))
    | .Panic =>
      let k :=
        match k.sched.currentIdx with
        | some i => terminateTask i k
        | none => k
      .ok ({ k with sched := k.sched.cycle }, .mkExit)
    | .Alloc size align =>
      match k.sched.currentIdx with
      | some i =>
        let t := k.sched.tasks i
        let pa := t.allocator.alloc size align
        .ok ({ k with sched := { k.sched with
                tasks := Function.update k.sched.tasks i
                  { t with allocator := pa.2 } } },
             .mkValue (.alloc pa.1))
      | none => .ok (k, .mkNone)
    | .Dealloc ptr size align =>
      match k.sched.currentIdx with
      | some i =>
        let t := k.sched.tasks i
        .ok ({ k with sched := { k.sched with
                tasks := Function.update k.sched.tasks i
                  { t with allocator := t.allocator.dealloc ptr size align } } },
             .mkNone)
      | none => .ok (k, .mkNone)

/-! ## Derived notions used by the theorems -/

/-- The indices a circular scan with the source's loop shape visits: start at
index, advance by one mod MAX_TASKS, stop on reaching initial again or on
exhausting fuel. -/
def visitList : Nat → Nat → Nat → List Nat
  | _, _, 0 => []
  | index, initial, fuel + 1 =>
    index ::
      (if (index + 1) % MAX_TASKS = initial then []
       else visitList ((index + 1) % MAX_TASKS) initial fuel)

/-- The task indices in circular scan order starting at init. -/
def scanList (init : Nat) : List Nat :=
  (List.range MAX_TASKS).map fun k => (init + k) % MAX_TASKS

/-- Number of slots of the task table not in state Terminated. -/
def countNonTerminated (s : Scheduler) : Nat :=
  (List.range MAX_TASKS).countP fun i => !((s.tasks i).state == .Terminated)

/-- At most one slot of the task table is in state Running. -/
def atMostOneRunning (s : Scheduler) : Prop :=
  ∀ i j, (s.tasks i).state = .Running → (s.tasks j).state = .Running → i = j

/-! ## The kernel control flow (boot, kernel loop, SVC entry)

switch_context/restore_context never return: after a dispatch, control is
in user mode and re-enters the kernel only through the SVC stub, which on
an exit-flagged return falls into the scheduler loop instead of resuming
the caller (src/kernel/src/kernel.rs swi_handler, kernel_loop and
src/kernel/src/main.rs _start). -/

inductive Mode where
  | kernelLoop
  | user
deriving DecidableEq

structure SysState where
  k : KernelState
  mode : Mode

/-- One kernel-visible transition: task creation (from _start, before the
loop), a scheduler switch from the kernel loop (dispatching into user mode
when a task was picked), or a syscall trap from user mode (falling back
into the kernel loop exactly when the returned exit flag is set).  A decode
failure panics and halts, so it yields no transition. -/
inductive KStep : SysState → SysState → Prop where
  | create {k : KernelState} (code : List Nat) {tid : Nat} {k' : KernelState} :
      createTask code k = some (tid, k') →
      KStep ⟨k, .kernelLoop⟩ ⟨k', .kernelLoop⟩
  | switchDispatch {k : KernelState} (now : Nat) {k' : KernelState} {tid : Nat} :
      switchStep now k = (k', some tid) →
      KStep ⟨k, .kernelLoop⟩ ⟨k', .user⟩
  | switchIdle {k : KernelState} (now : Nat) {k' : KernelState} :
      switchStep now k = (k', none) →
      KStep ⟨k, .kernelLoop⟩ ⟨k', .kernelLoop⟩
  | svcExit {k : KernelState} (env : Env) (f : TrapFrame) {k' : KernelState}
      {r : SyscallReturn} :
      swi_handler env f k = .ok (k', r) → r.exit = true →
      KStep ⟨k, .user⟩ ⟨k', .kernelLoop⟩
  | svcRet {k : KernelState} (env : Env) (f : TrapFrame) {k' : KernelState}
      {r : SyscallReturn} :
      swi_handler env f k = .ok (k', r) → r.exit = false →
      KStep ⟨k, .user⟩ ⟨k', .user⟩

/-- States reachable from the boot state through task creation, syscall
handling and scheduler switches. -/
def SysReachable (s : SysState) : Prop :=
  Relation.ReflTransGen KStep ⟨initKernelState, .kernelLoop⟩ s

/-- The control-flow invariant: while in the kernel loop no task is Running;
while in user mode, current_index names the unique Running task. -/
def modeInv : SysState → Prop
  | ⟨k, .kernelLoop⟩ => ∀ i, (k.sched.tasks i).state ≠ .Running
  | ⟨k, .user⟩ => ∃ c, k.sched.current_index = some c ∧
      (k.sched.tasks c).state = .Running ∧
      ∀ i, (k.sched.tasks i).state = .Running → i = c

/-! ## Helper lemmas -/

theorem executable_fst (now : Nat) (t : Task) :
    (Task.executable now t).1 = execPred now t := by
  unfold Task.executable execPred
  cases t.state <;> simp only
  split <;> simp [*]

theorem executable_snd_of_pos (now : Nat) (t : Task) (h : execPred now t = true) :
    (Task.executable now t).2 =
      match t.state with
      | .Waiting _ => { t with state := .Stored }
      | _ => t := by
  unfold Task.executable
  unfold execPred at h
  cases ht : t.state <;> simp_all

theorem executable_state_running (now : Nat) (t : Task)
    (h : (Task.executable now t).2.state = .Running) : t.state = .Running := by
  unfold Task.executable at h
  cases ht : t.state <;> rw [ht] at h <;> simp_all
  split at h <;> simp_all

theorem nextTaskLoop_eq (now : Nat) (s : Scheduler) :
    ∀ fuel index initial,
      Scheduler.nextTaskLoop now s index initial fuel =
        ((visitList index initial fuel).find? fun j => execPred now (s.tasks j)).map
          fun j => (j, { s with
            tasks := Function.update s.tasks j (Task.executable now (s.tasks j)).2 }) := by
  intro fuel
  induction fuel with
  | zero => intro index initial; rfl
  | succ n ih =>
    intro index initial
    rw [Scheduler.nextTaskLoop, visitList]
    rcases hex : Task.executable now (s.tasks index) with ⟨ok, t'⟩
    have hfst : execPred now (s.tasks index) = ok := by
      rw [← executable_fst now (s.tasks index), hex]
    simp only [hex]
    cases ok with
    | true =>
      rw [List.find?_cons_of_pos _ (by simpa using hfst)]
      simp [hex]
    | false =>
      rw [List.find?_cons_of_neg _ (by simpa using hfst)]
      simp only [Bool.false_eq_true, if_false]
      by_cases hc : (index + 1) % MAX_TASKS = initial
      · simp [hc]
      · rw [if_neg hc, if_neg hc]
        exact ih _ initial

theorem next_task_some {now : Nat} {s : Scheduler} {j : Nat} {s' : Scheduler}
    (h : s.next_task now = some (j, s')) :
    (visitList (s.current_index.getD 0) (s.current_index.getD 0) MAX_TASKS).find?
        (fun i => execPred now (s.tasks i)) = some j ∧
      s' = { s with
        tasks := Function.update s.tasks j (Task.executable now (s.tasks j)).2 } := by
  unfold Scheduler.next_task at h
  rw [nextTaskLoop_eq] at h
  rcases hf : (visitList (s.current_index.getD 0) (s.current_index.getD 0)
      MAX_TASKS).find? fun i => execPred now (s.tasks i) with _ | j'
  · rw [hf] at h; simp at h
  · rw [hf] at h
    simp only [Option.map_some', Option.some.injEq, Prod.mk.injEq] at h
    obtain ⟨h1, h2⟩ := h
    subst h1
    exact ⟨rfl, h2.symm⟩

theorem next_task_none {now : Nat} {s : Scheduler}
    (h : s.next_task now = none) :
    (visitList (s.current_index.getD 0) (s.current_index.getD 0) MAX_TASKS).find?
      (fun i => execPred now (s.tasks i)) = none := by
  unfold Scheduler.next_task at h
  rw [nextTaskLoop_eq] at h
  rcases hf : (visitList (s.current_index.getD 0) (s.current_index.getD 0)
      MAX_TASKS).find? fun i => execPred now (s.tasks i) with _ | j'
  · rfl
  · rw [hf] at h; simp at h

theorem taskWithStateLoop_eq (s : Scheduler) (target : TaskState) :
    ∀ fuel index initial,
      Scheduler.taskWithStateLoop s target index initial fuel =
        (visitList index initial fuel).find? fun j => (s.tasks j).state = target := by
  intro fuel
  induction fuel with
  | zero => intro index initial; rfl
  | succ n ih =>
    intro index initial
    rw [Scheduler.taskWithStateLoop, visitList]
    by_cases hst : (s.tasks index).state = target
    · rw [List.find?_cons_of_pos _ (by simpa using hst)]
      simp [hst]
    · rw [List.find?_cons_of_neg _ (by simpa using hst)]
      rw [if_neg hst]
      by_cases hc : (index + 1) % MAX_TASKS = initial
      · simp [hc]
      · rw [if_neg hc, if_neg hc]
        exact ih _ initial

theorem visitList_eq_scanList {init : Nat} (h : init < MAX_TASKS) :
    visitList init init MAX_TASKS = scanList init := by
  have h4 : init < 4 := by simpa [MAX_TASKS] using h
  interval_cases init <;> decide

theorem mem_scanList {init : Nat} (h : init < MAX_TASKS) (i : Nat) :
    i ∈ scanList init ↔ i < MAX_TASKS := by
  simp only [scanList, List.mem_map, List.mem_range, MAX_TASKS] at *
  constructor
  · rintro ⟨k, _, rfl⟩; omega
  · intro hi; exact ⟨(i + 4 - init) % 4, by omega, by omega⟩

theorem execPred_ne_running {now : Nat} {t : Task} (h : execPred now t = true) :
    t.state ≠ .Running := by
  unfold execPred at h
  intro hc; rw [hc] at h; simp at h

theorem execPred_ne_terminated {now : Nat} {t : Task} (h : execPred now t = true) :
    t.state ≠ .Terminated := by
  unfold execPred at h
  intro hc; rw [hc] at h; simp at h

/-! ## C1: Scheduler::next_task -/

/-- C1.  For every scheduler state (with a valid current_index), next_task
starts at current_index (or 0 when it is none) and scans the task array in
circular order, returning the first task whose state is Ready or Stored, or
Waiting with now at or past the deadline (the boundary case counts since
the test is now ≥ until); a returned Waiting task is promoted to Stored
before returning and nothing else changes; Running and Terminated tasks
are never returned; the result is none exactly when the full cycle over
all MAX_TASKS slots finds no executable task. -/
theorem C1_next_task_correct (now : Nat) (s : Scheduler)
    (hci : s.current_index.getD 0 < MAX_TASKS) :
    (s.next_task now = none ↔
      ∀ i, i < MAX_TASKS → execPred now (s.tasks i) = false)
  ∧ ∀ j s', s.next_task now = some (j, s') →
      (scanList (s.current_index.getD 0)).find?
          (fun i => execPred now (s.tasks i)) = some j
    ∧ execPred now (s.tasks j) = true
    ∧ (s.tasks j).state ≠ .Running
    ∧ (s.tasks j).state ≠ .Terminated
    ∧ (∀ u, (s.tasks j).state = .Waiting u → now ≥ u ∧
        s' = { s with tasks :=
          Function.update s.tasks j { s.tasks j with state := .Stored } })
    ∧ (((s.tasks j).state = .Ready ∨ (s.tasks j).state = .Stored) → s' = s) := by
  constructor
  · constructor
    · intro h i hi
      have hf := next_task_none h
      rw [visitList_eq_scanList hci] at hf
      have := List.find?_eq_none.mp hf i ((mem_scanList hci i).mpr hi)
      simpa using this
    · intro hall
      rcases hnt : s.next_task now with _ | ⟨j, s'⟩
      · rfl
      · obtain ⟨hf, _⟩ := next_task_some hnt
        rw [visitList_eq_scanList hci] at hf
        have hj := List.find?_some hf
        have hjmem := List.mem_of_find?_eq_some hf
        have := hall j ((mem_scanList hci j).mp hjmem)
        simp [this] at hj
  · intro j s' hnt
    obtain ⟨hf, hs'⟩ := next_task_some hnt
    rw [visitList_eq_scanList hci] at hf
    have hj : execPred now (s.tasks j) = true := by
      simpa using List.find?_some hf
    refine ⟨hf, hj, execPred_ne_running hj, execPred_ne_terminated hj, ?_, ?_⟩
    · intro u hu
      constructor
      · unfold execPred at hj; rw [hu] at hj; simpa using hj
      · rw [hs', executable_snd_of_pos now _ hj, hu]
    · intro hrs
      rw [hs', executable_snd_of_pos now _ hj]
      rcases hrs with h | h <;> rw [h] <;> simp [Function.update_eq_self]

/-- Concrete scheduler exercising the Waiting boundary for the C1 witness:
slot 0 waits until tick 5, everything else is free. -/
def schedC1 : Scheduler :=
  { tasks := fun i =>
      { Task.empty with
        id := i,
        state := if i = 0 then .Waiting 5 else .Terminated },
    current_index := none }

def schedC1' : Scheduler :=
  { tasks := Function.update schedC1.tasks 0 { schedC1.tasks 0 with state := .Stored },
    current_index := none }

theorem C1_next_task_correct_witness :
    schedC1.next_task 5 = some (0, schedC1') ∧ (5:Nat) ≥ 5 ∧
      execPred 5 (schedC1.tasks 0) = true ∧ (schedC1.tasks 0).state ≠ .Running := by
  have hsome : schedC1.next_task 5 = some (0, schedC1') := by rfl
  have h := (C1_next_task_correct 5 schedC1 (by decide)).2 0 schedC1' hsome
  exact ⟨hsome, (h.2.2.2.2.1 5 (by decide)).1, h.2.1, h.2.2.1⟩

/-! ## The page allocator scan -/

theorem findIdx_eq_none (p : Nat → Bool) :
    ∀ fuel i, findIdx p i fuel = none ↔ ∀ j, i ≤ j → j < i + fuel → p j = false := by
  intro fuel
  induction fuel with
  | zero => intro i; simp [findIdx]; omega
  | succ n ih =>
    intro i
    rw [findIdx]
    by_cases hp : p i
    · simp only [hp, if_true]
      constructor
      · intro h; exact absurd h (by simp)
      · intro h; rw [h i le_rfl (by omega)] at hp; simp at hp
    · rw [if_neg hp, ih]
      constructor
      · intro h j h1 h2
        rcases Nat.eq_or_lt_of_le h1 with rfl | hlt
        · simpa using hp
        · exact h j hlt (by omega)
      · intro h j h1 h2; exact h j (by omega) (by omega)

theorem findIdx_eq_some (p : Nat → Bool) :
    ∀ fuel i j, findIdx p i fuel = some j →
      i ≤ j ∧ j < i + fuel ∧ p j = true ∧ ∀ m, i ≤ m → m < j → p m = false := by
  intro fuel
  induction fuel with
  | zero => intro i j h; simp [findIdx] at h
  | succ n ih =>
    intro i j h
    rw [findIdx] at h
    by_cases hp : p i
    · rw [if_pos hp] at h
      obtain rfl : i = j := by simpa using h
      exact ⟨le_rfl, by omega, hp, fun m h1 h2 => by omega⟩
    · rw [if_neg hp] at h
      obtain ⟨h1, h2, h3, h4⟩ := ih (i + 1) j h
      refine ⟨by omega, by omega, h3, fun m hm1 hm2 => ?_⟩
      rcases Nat.eq_or_lt_of_le hm1 with rfl | hlt
      · simpa using hp
      · exact h4 m hlt hm2

/-- First-free-index characterization of try_new: fails exactly when every
page is used; on success the returned handle carries the supplied ASID,
virtual address 0, physical frame BASE_ADDRESS + (index shifted left by
PAGE_SIZE_BITS) for the least free index, full permissions, and only that
index's used bit is newly set. -/
theorem try_new_spec (asid : Option Nat) (s : PageState) :
    (L2SmallPageTableEntry.try_new asid s = none ↔
      ∀ i, i < PAGE_TABLE_SIZE → s.used_pages i = true)
  ∧ ∀ h s', L2SmallPageTableEntry.try_new asid s = some (h, s') →
      ∃ i, i < PAGE_TABLE_SIZE ∧ s.used_pages i = false
      ∧ (∀ j, j < i → s.used_pages j = true)
      ∧ h = { asid := asid, virtual_address := 0,
              physical_address := BASE_ADDRESS + (i <<< PAGE_SIZE_BITS),
              permissions := .Full }
      ∧ s' = { s with used_pages := Function.update s.used_pages i true } := by
  constructor
  · unfold L2SmallPageTableEntry.try_new
    rcases hf : findIdx (fun i => !s.used_pages i) 0 PAGE_TABLE_SIZE with _ | i
    · simp only []
      constructor
      · intro _ i hi
        have := (findIdx_eq_none _ _ _).mp hf i (by omega) (by omega)
        simpa using this
      · intro _; trivial
    · simp only []
      constructor
      · intro h; exact absurd h (by simp)
      · intro hall
        obtain ⟨_, h2, h3, _⟩ := findIdx_eq_some _ _ _ _ hf
        rw [hall i (by omega)] at h3
        simp at h3
  · intro h s' hsome
    unfold L2SmallPageTableEntry.try_new at hsome
    rcases hf : findIdx (fun i => !s.used_pages i) 0 PAGE_TABLE_SIZE with _ | i
    · rw [hf] at hsome; exact absurd hsome (by simp)
    · rw [hf] at hsome
      obtain ⟨_, h2, h3, h4⟩ := findIdx_eq_some _ _ _ _ hf
      simp only [Option.some.injEq, Prod.mk.injEq] at hsome
      refine ⟨i, by omega, by simpa using h3, fun j hj => ?_, hsome.1.symm, hsome.2.symm⟩
      have := h4 j (by omega) hj
      simpa using this

/-! ## C5: L2SmallPageTableEntry::try_new -/

/-- C5 counterexample state: page 0 used, every other page free. -/
def pageStC5 : PageState :=
  { level2 := fun _ => L2_FAULT_PAGE_TABLE_ENTRY,
    used_pages := fun i => i = 0 }

/-- C5 counterexample: from a state where exactly page 0 is used, try_new
picks free index 1 and returns physical frame BASE_ADDRESS + 1 * 4 KiB, but
the handle's virtual address is 0, not index * 4 KiB = 4096 as the claim
states. -/
theorem C5_counterexample :
    (L2SmallPageTableEntry.try_new (some 7) pageStC5).map
        (fun p => (p.1.virtual_address, p.1.physical_address)) =
      some (0, BASE_ADDRESS + 1 * 4096) ∧ (0 : Nat) ≠ 1 * 4096 := by
  constructor
  · rfl
  · decide

/-- C5 (amended: the handle's virtual address is always 0, the base of the
user window, rather than index * 4 KiB).  try_new linearly scans used_pages
for the first free index i, marks it used, and returns a handle whose
physical frame address is the fixed base plus i * 4 KiB, whose virtual
address is 0, carrying the supplied optional ASID and full-access
permissions; it returns none exactly when all 256 pages are used. -/
theorem C5_try_new_amended (asid : Option Nat) (s : PageState) :
    (L2SmallPageTableEntry.try_new asid s = none ↔
      ∀ i, i < PAGE_TABLE_SIZE → s.used_pages i = true)
  ∧ ∀ h s', L2SmallPageTableEntry.try_new asid s = some (h, s') →
      ∃ i, i < PAGE_TABLE_SIZE ∧ s.used_pages i = false
      ∧ (∀ j, j < i → s.used_pages j = true)
      ∧ h = { asid := asid, virtual_address := 0,
              physical_address := BASE_ADDRESS + (i <<< PAGE_SIZE_BITS),
              permissions := .Full }
      ∧ s' = { s with used_pages := Function.update s.used_pages i true } :=
  try_new_spec asid s

theorem task_with_state_eq (s : Scheduler) (target : TaskState)
    (hci : s.current_index.getD 0 < MAX_TASKS) :
    s.task_with_state target =
      (scanList (s.current_index.getD 0)).find? fun j => (s.tasks j).state = target := by
  unfold Scheduler.task_with_state
  rw [taskWithStateLoop_eq, visitList_eq_scanList hci]

theorem frameIndex_mk (asid : Option Nat) (i : Nat) :
    L2SmallPageTableEntry.frameIndex
      { asid := asid, virtual_address := 0,
        physical_address := BASE_ADDRESS + (i <<< PAGE_SIZE_BITS),
        permissions := .Full } = i := by
  unfold L2SmallPageTableEntry.frameIndex
  simp only [Nat.add_sub_cancel_left, Nat.shiftLeft_eq, Nat.shiftRight_eq_div_pow,
    PAGE_SIZE_BITS]
  omega

/-! ## C4: Scheduler::create_task -/

/-- C4.  create_task finds a Terminated slot by a circular scan from the
current index and fails exactly when there is no such slot or page
allocation fails (all pages used); on success it allocates the first free
page with ASID = task id, copies the program bytes into that page's frame,
sets the slot's state to Ready, its saved SP to the page end, its saved PC
to the page start, initialises the bump allocator over the range from the
end of the copied code (code length, since the page starts at virtual 0)
up to the page end minus STACK_GUARD = 1024 bytes, and returns the task
id. -/
theorem C4_create_task_correct (code : List Nat) (k : KernelState)
    (hci : k.sched.current_index.getD 0 < MAX_TASKS)
    (hid : ∀ i, i < MAX_TASKS → (k.sched.tasks i).id = i) :
    (createTask code k = none ↔
      ((scanList (k.sched.current_index.getD 0)).find?
          (fun i => (k.sched.tasks i).state = .Terminated) = none
        ∨ ∀ i, i < PAGE_TABLE_SIZE → k.pages.used_pages i = true))
  ∧ ∀ tid k', createTask code k = some (tid, k') →
      ∃ slot i0 page,
        (scanList (k.sched.current_index.getD 0)).find?
            (fun i => (k.sched.tasks i).state = .Terminated) = some slot
      ∧ tid = (k.sched.tasks slot).id
      ∧ i0 < PAGE_TABLE_SIZE ∧ k.pages.used_pages i0 = false
      ∧ (∀ j, j < i0 → k.pages.used_pages j = true)
      ∧ page = ({ asid := some tid, virtual_address := 0,
                  physical_address := BASE_ADDRESS + (i0 <<< PAGE_SIZE_BITS),
                  permissions := .Full } : L2SmallPageTableEntry)
      ∧ k'.frames = Function.update k.frames i0 code
      ∧ k'.pages = page.register
          { k.pages with used_pages := Function.update k.pages.used_pages i0 true }
      ∧ k'.sched.current_index = k.sched.current_index
      ∧ k'.sched.tasks = Function.update k.sched.tasks tid
          { k.sched.tasks tid with
            page := page,
            state := .Ready,
            context := { sp := page.endAddr, pc := page.start },
            allocator := { heap_start := code.length,
                           heap_end := page.endAddr - STACK_GUARD,
                           next := code.length } } := by
  unfold createTask
  rw [task_with_state_eq _ _ hci]
  rcases hslot : (scanList (k.sched.current_index.getD 0)).find?
      (fun i => (k.sched.tasks i).state = .Terminated) with _ | slot
  · exact ⟨by simp, by intro tid k' h; exact absurd h (by simp)⟩
  · dsimp only
    rcases htn : L2SmallPageTableEntry.try_new (some (k.sched.tasks slot).id) k.pages
        with _ | ⟨page, ps⟩
    · constructor
      · constructor
        · intro _
          exact Or.inr ((try_new_spec _ k.pages).1.mp htn)
        · intro _; rfl
      · intro tid k' h; exact absurd h (by simp)
    · constructor
      · constructor
        · intro h; exact absurd h (by simp)
        · rintro (h | h)
          · exact absurd h (by simp)
          · rw [(try_new_spec _ k.pages).1.mpr h] at htn
            exact absurd htn (by simp)
      · intro tid k' h
        simp only [Option.some.injEq, Prod.mk.injEq] at h
        obtain ⟨htid, hk'⟩ := h
        obtain ⟨i0, hi0, hfree, hprev, hpage, hps⟩ :=
          (try_new_spec _ k.pages).2 page ps htn
        have hslot4 : slot < MAX_TASKS :=
          (mem_scanList hci slot).mp (List.mem_of_find?_eq_some hslot)
        have hsid : (k.sched.tasks slot).id = slot := hid slot hslot4
        rw [hsid] at htid
        have htid' : tid = (k.sched.tasks slot).id := htid.symm
        rw [hsid] at hk' htn hpage
        refine ⟨slot, i0, page, rfl, htid', hi0, hfree, hprev, ?_, ?_, ?_, ?_, ?_⟩
        · rw [hpage, htid', hsid]
        · rw [← hk']
          dsimp only
          rw [hpage, frameIndex_mk]
        · rw [← hk']
          dsimp only
          rw [hps]
        · rw [← hk']
        · rw [← hk', htid', hsid]
          dsimp only
          rw [hpage]
          dsimp only [BumpAllocator.init]
          rw [hsid]

/-- The page handle create_task obtains for the first task after boot. -/
def pageC4 : L2SmallPageTableEntry :=
  { asid := some 0, virtual_address := 0, physical_address := BASE_ADDRESS,
    permissions := .Full }

/-- Kernel state after creating the first task (program [1, 2, 3]) at boot. -/
def kC4 : KernelState :=
  { sched :=
      { tasks := Function.update initKernelState.sched.tasks 0
          { id := 0, state := .Ready, context := { sp := 4092, pc := 0 },
            allocator := { heap_start := 3, heap_end := 3068, next := 3 },
            page := pageC4 },
        current_index := none },
    pages :=
      { level2 := Function.update initPageState.level2 0 pageC4.toWord,
        used_pages := Function.update initPageState.used_pages 0 true },
    frames := Function.update initKernelState.frames 0 [1, 2, 3],
    gpio := initKernelState.gpio }

theorem C4_create_task_correct_witness :
    createTask [1, 2, 3] initKernelState = some (0, kC4) ∧
      (kC4.sched.tasks 0).state = .Ready := by
  have hsome : createTask [1, 2, 3] initKernelState = some (0, kC4) := by rfl
  obtain ⟨slot, i0, page, hfind, -, -, -, -, -, -, -, -, htasks⟩ :=
    (C4_create_task_correct [1, 2, 3] initKernelState (by decide)
      (by intro i hi; rfl)).2 0 kC4 hsome
  refine ⟨hsome, ?_⟩
  rw [htasks, Function.update_same]

/-! ## C2: the Yield syscall -/

/-- C2.  Every trap frame with r12 = 1 decodes to Yield with sp = r0,
pc = r1 and deadline none exactly when r2 = 0; the dispatcher, when a
current Running task exists, stores sp and pc into that task's context and
sets its state to Stored (no deadline) or Waiting r2, touches no other
task, no page state, no frame and no pin, advances current_index by one
modulo MAX_TASKS via cycle (a no-op when current_index is none), and
always returns with the exit flag set. -/
theorem C2_yield_correct (env : Env) (f : TrapFrame) (k : KernelState)
    (h12 : f.r12 = 1) :
    decodeSyscall f =
      some (.Yield f.r0 f.r1 (if f.r2 = 0 then none else some f.r2))
  ∧ ∃ k', swi_handler env f k = .ok (k', SyscallReturn.mkExit)
      ∧ SyscallReturn.mkExit.exit = true
      ∧ k'.sched.current_index =
          k.sched.current_index.map (fun i => (i + 1) % MAX_TASKS)
      ∧ k'.pages = k.pages ∧ k'.frames = k.frames ∧ k'.gpio = k.gpio
      ∧ (∀ i, k.sched.currentIdx = some i →
            (k'.sched.tasks i).context = { sp := f.r0, pc := f.r1 }
          ∧ (k'.sched.tasks i).state =
              (if f.r2 = 0 then TaskState.Stored else .Waiting f.r2)
          ∧ (k'.sched.tasks i).page = (k.sched.tasks i).page
          ∧ (k'.sched.tasks i).allocator = (k.sched.tasks i).allocator
          ∧ (k'.sched.tasks i).id = (k.sched.tasks i).id
          ∧ ∀ j, j ≠ i → k'.sched.tasks j = k.sched.tasks j)
      ∧ (k.sched.currentIdx = none → k'.sched.tasks = k.sched.tasks) := by
  have hdec : decodeSyscall f =
      some (.Yield f.r0 f.r1 (if f.r2 = 0 then none else some f.r2)) := by
    unfold decodeSyscall
    rw [h12]
    rcases f.r2 with _ | u <;> simp
  refine ⟨hdec, ?_⟩
  unfold swi_handler
  rw [hdec]
  by_cases hr2 : f.r2 = 0
  · rw [if_pos hr2]
    dsimp only
    rcases hcur : k.sched.currentIdx with _ | i
    · dsimp only
      refine ⟨_, rfl, rfl, rfl, rfl, rfl, rfl, ?_, ?_⟩
      · intro i hi
        exact absurd hi (by simp)
      · intro _; rfl
    · dsimp only
      refine ⟨_, rfl, rfl, rfl, rfl, rfl, rfl, ?_, ?_⟩
      · intro i' hi'
        obtain rfl : i = i' := by simpa using hi'
        rw [if_pos hr2]
        refine ⟨?_, ?_, ?_, ?_, ?_, ?_⟩ <;>
          first
            | (dsimp only [Scheduler.cycle]; rw [Function.update_same])
            | (intro j hj
               dsimp only [Scheduler.cycle]
               rw [Function.update_noteq hj])
      · intro hnone
        exact absurd hnone (by simp)
  · rw [if_neg hr2]
    dsimp only
    rcases hcur : k.sched.currentIdx with _ | i
    · dsimp only
      refine ⟨_, rfl, rfl, rfl, rfl, rfl, rfl, ?_, ?_⟩
      · intro i hi
        exact absurd hi (by simp)
      · intro _; rfl
    · dsimp only
      refine ⟨_, rfl, rfl, rfl, rfl, rfl, rfl, ?_, ?_⟩
      · intro i' hi'
        obtain rfl : i = i' := by simpa using hi'
        rw [if_neg hr2]
        refine ⟨?_, ?_, ?_, ?_, ?_, ?_⟩ <;>
          first
            | (dsimp only [Scheduler.cycle]; rw [Function.update_same])
            | (intro j hj
               dsimp only [Scheduler.cycle]
               rw [Function.update_noteq hj])
      · intro hnone
        exact absurd hnone (by simp)

/-- Concrete Yield trap frame for the C2 witness. -/
def frameC2 : TrapFrame := { r0 := 10, r1 := 20, r2 := 0, r3 := 0, r12 := 1 }

theorem C2_yield_correct_witness :
    decodeSyscall frameC2 = some (.Yield 10 20 none) := by
  have h := (C2_yield_correct { now := 0, i2c_result := 0 } frameC2
    initKernelState rfl).1
  simpa using h

/-! ## C3: the Exit syscall -/

theorem currentIdx_eq_some {s : Scheduler} {i : Nat} :
    s.currentIdx = some i ↔
      s.current_index = some i ∧ (s.tasks i).state = .Running := by
  unfold Scheduler.currentIdx
  rcases h : s.current_index with _ | j
  · simp
  · dsimp only
    by_cases hr : (s.tasks j).state = .Running
    · rw [if_pos hr]
      constructor
      · intro hh
        obtain rfl : j = i := by simpa using hh
        exact ⟨rfl, hr⟩
      · rintro ⟨hji, _⟩
        obtain rfl : j = i := by simpa using hji
        rfl
    · rw [if_neg hr]
      constructor
      · intro hh; exact absurd hh (by simp)
      · rintro ⟨hji, hri⟩
        obtain rfl : j = i := by simpa using hji
        exact absurd hri hr

theorem countNonTerminated_expand (s : Scheduler) :
    countNonTerminated s =
      (if (s.tasks 0).state = .Terminated then 0 else 1)
    + (if (s.tasks 1).state = .Terminated then 0 else 1)
    + (if (s.tasks 2).state = .Terminated then 0 else 1)
    + (if (s.tasks 3).state = .Terminated then 0 else 1) := by
  unfold countNonTerminated
  rw [show List.range MAX_TASKS = [0, 1, 2, 3] from rfl]
  by_cases h0 : (s.tasks 0).state = .Terminated <;>
    by_cases h1 : (s.tasks 1).state = .Terminated <;>
    by_cases h2 : (s.tasks 2).state = .Terminated <;>
    by_cases h3 : (s.tasks 3).state = .Terminated <;>
    simp [List.countP_cons, h0, h1, h2, h3]

theorem countNonTerminated_update (s : Scheduler) (i : Nat) (hi : i < MAX_TASKS)
    (t : Task) (hold : (s.tasks i).state ≠ .Terminated)
    (hnew : t.state = .Terminated) :
    countNonTerminated { s with tasks := Function.update s.tasks i t } + 1 =
      countNonTerminated s := by
  have h4 : i < 4 := by simpa [MAX_TASKS] using hi
  rw [countNonTerminated_expand, countNonTerminated_expand]
  interval_cases i <;>
    simp only [Function.update_apply] <;>
    norm_num <;>
    simp only [hnew, if_pos rfl, if_neg hold] <;>
    split_ifs <;>
    omega

/-- C3.  Every trap frame with r12 = 0 decodes to Exit; the dispatcher
terminates the current Running task when one exists (state Terminated,
its page handle unregistered, no other task touched), advances
current_index by one modulo MAX_TASKS via cycle (a no-op when
current_index is none), always returns with the exit flag set, and the
termination leaves exactly one fewer non-terminated task — in particular a
task obtained from a successful create_task that later performs Exit (and
is then the current Running task) reduces the non-terminated count by
exactly one. -/
theorem C3_exit_correct (env : Env) (f : TrapFrame) (k : KernelState)
    (h12 : f.r12 = 0)
    (hci : ∀ i, k.sched.current_index = some i → i < MAX_TASKS) :
    decodeSyscall f = some .Exit
  ∧ ∃ k', swi_handler env f k = .ok (k', SyscallReturn.mkExit)
      ∧ SyscallReturn.mkExit.exit = true
      ∧ k'.sched.current_index =
          k.sched.current_index.map (fun i => (i + 1) % MAX_TASKS)
      ∧ (∀ i, k.sched.currentIdx = some i →
            (k'.sched.tasks i).state = .Terminated
          ∧ k'.pages = (k.sched.tasks i).page.unregister k.pages
          ∧ (∀ j, j ≠ i → k'.sched.tasks j = k.sched.tasks j)
          ∧ countNonTerminated k'.sched + 1 = countNonTerminated k.sched)
      ∧ (k.sched.currentIdx = none →
          k'.sched.tasks = k.sched.tasks ∧ k'.pages = k.pages) := by
  have hdec : decodeSyscall f = some .Exit := by
    unfold decodeSyscall; rw [h12]
  refine ⟨hdec, ?_⟩
  unfold swi_handler
  rw [hdec]
  dsimp only
  rcases hcur : k.sched.currentIdx with _ | i
  · dsimp only
    refine ⟨_, rfl, rfl, rfl, ?_, ?_⟩
    · intro i hi; exact absurd hi (by simp)
    · intro _; exact ⟨rfl, rfl⟩
  · dsimp only [terminateTask]
    refine ⟨_, rfl, rfl, rfl, ?_, ?_⟩
    · intro i' hi'
      obtain rfl : i = i' := by simpa using hi'
      obtain ⟨hcidx, hrun⟩ := currentIdx_eq_some.mp hcur
      refine ⟨?_, rfl, ?_, ?_⟩
      · dsimp only [Scheduler.cycle]; rw [Function.update_same]
      · intro j hj; dsimp only [Scheduler.cycle]; rw [Function.update_noteq hj]
      · exact countNonTerminated_update k.sched i (hci i hcidx) _
          (by rw [hrun]; simp) rfl
    · intro hnone; exact absurd hnone (by simp)

/-- Scheduler for the C3 witness: task 0 is the current Running task. -/
def kC3 : KernelState :=
  { initKernelState with
    sched :=
      { tasks := Function.update initKernelState.sched.tasks 0
          { initKernelState.sched.tasks 0 with state := .Running },
        current_index := some 0 } }

theorem C3_exit_correct_witness :
    decodeSyscall { r0 := 0, r1 := 0, r2 := 0, r3 := 0, r12 := 0 } = some .Exit ∧
      countNonTerminated kC3.sched = 1 := by
  have h := C3_exit_correct { now := 0, i2c_result := 0 }
    { r0 := 0, r1 := 0, r2 := 0, r3 := 0, r12 := 0 } kC3 rfl
    (by
      intro i hi
      simp only [kC3, Option.some.injEq] at hi
      rw [← hi]
      decide)
  exact ⟨h.1, by decide⟩

/-! ## C9: unknown syscall numbers -/

/-- The CPU state the panic handler manipulates: the IRQ-enable flag. -/
structure CpuIrqState where
  irq_enabled : Bool
deriving DecidableEq

/-- The panic handler of src/kernel/src/exceptions.rs: disable_interrupts,
then an empty infinite loop. -/
def panicHandlerEntry (_c : CpuIrqState) : CpuIrqState := { irq_enabled := false }

/-- One iteration of the panic handler's loop body: it does nothing, so the
handler never returns and never re-enables anything. -/
def panicLoopIter (c : CpuIrqState) : CpuIrqState := c

/-- C9.  A trap frame whose r12 is not one of the nine defined syscall
numbers 0..8 fails to decode; swi_handler panics without modifying any
state (the error value carries the kernel state unchanged, and no
SyscallReturn value is produced for the caller); the panic handler
disables interrupts and its loop never makes progress (halts forever). -/
theorem C9_unknown_syscall (env : Env) (f : TrapFrame) (k : KernelState)
    (c : CpuIrqState) (h12 : 8 < f.r12) :
    decodeSyscall f = none
  ∧ swi_handler env f k = .error k
  ∧ (panicHandlerEntry c).irq_enabled = false
  ∧ ∀ n, panicLoopIter^[n] (panicHandlerEntry c) = panicHandlerEntry c := by
  obtain ⟨r0, r1, r2, r3, r12⟩ := f
  dsimp only at h12
  obtain ⟨m, rfl⟩ : ∃ m, r12 = m + 9 := ⟨r12 - 9, by omega⟩
  have hdec : decodeSyscall ⟨r0, r1, r2, r3, m + 9⟩ = none := rfl
  refine ⟨hdec, ?_, rfl, ?_⟩
  · unfold swi_handler
    rw [hdec]
  · intro n
    induction n with
    | zero => rfl
    | succ p ih => rw [Function.iterate_succ_apply', ih]; rfl

theorem C9_unknown_syscall_witness :
    decodeSyscall { r0 := 0, r1 := 0, r2 := 0, r3 := 0, r12 := 42 } = none ∧
      swi_handler { now := 0, i2c_result := 0 }
        { r0 := 0, r1 := 0, r2 := 0, r3 := 0, r12 := 42 } initKernelState =
        .error initKernelState := by
  have h := C9_unknown_syscall { now := 0, i2c_result := 0 }
    { r0 := 0, r1 := 0, r2 := 0, r3 := 0, r12 := 42 } initKernelState
    { irq_enabled := true } (by decide)
  exact ⟨h.1, h.2.1⟩

/-! ## C10: syscalls with no current Running task -/

/-- C10.  When current_index is none or the task it names is not Running
(Scheduler::current yields nothing), the Exit, Yield and Panic syscalls
leave every task, the page tables and the frames untouched — the whole
kernel state change is cycle on current_index (advance by one modulo
MAX_TASKS when set) — and still return with the exit flag set; Alloc and
Dealloc leave the state entirely unchanged, touch no allocator, and Alloc
returns the none value instead of a pointer. -/
theorem C10_no_current_frame (env : Env) (f : TrapFrame) (k : KernelState)
    (hnc : k.sched.currentIdx = none) :
    ((f.r12 = 0 ∨ f.r12 = 1 ∨ f.r12 = 6) →
        swi_handler env f k =
          .ok ({ k with sched := k.sched.cycle }, SyscallReturn.mkExit)
      ∧ SyscallReturn.mkExit.exit = true
      ∧ k.sched.cycle.tasks = k.sched.tasks
      ∧ k.sched.cycle.current_index =
          k.sched.current_index.map (fun i => (i + 1) % MAX_TASKS))
  ∧ (f.r12 = 7 → swi_handler env f k = .ok (k, SyscallReturn.mkNone))
  ∧ (f.r12 = 8 → swi_handler env f k = .ok (k, SyscallReturn.mkNone)) := by
  refine ⟨?_, ?_, ?_⟩
  · rintro (h12 | h12 | h12)
    · have hdec : decodeSyscall f = some .Exit := by
        unfold decodeSyscall; rw [h12]
      unfold swi_handler
      rw [hdec]
      dsimp only
      rw [hnc]
      exact ⟨rfl, rfl, rfl, rfl⟩
    · have hdec : decodeSyscall f =
          some (.Yield f.r0 f.r1 (match f.r2 with | 0 => none | u => some u)) := by
        unfold decodeSyscall; rw [h12]
      unfold swi_handler
      rw [hdec]
      rcases f.r2 with _ | u
      · dsimp only
        rw [hnc]
        exact ⟨rfl, rfl, rfl, rfl⟩
      · dsimp only
        rw [hnc]
        exact ⟨rfl, rfl, rfl, rfl⟩
    · have hdec : decodeSyscall f = some .Panic := by
        unfold decodeSyscall; rw [h12]
      unfold swi_handler
      rw [hdec]
      dsimp only
      rw [hnc]
      exact ⟨rfl, rfl, rfl, rfl⟩
  · intro h12
    have hdec : decodeSyscall f = some (.Alloc f.r0 f.r1) := by
      unfold decodeSyscall; rw [h12]
    unfold swi_handler
    rw [hdec]
    dsimp only
    rw [hnc]
  · intro h12
    have hdec : decodeSyscall f = some (.Dealloc f.r0 f.r1 f.r2) := by
      unfold decodeSyscall; rw [h12]
    unfold swi_handler
    rw [hdec]
    dsimp only
    rw [hnc]

theorem C10_no_current_frame_witness :
    swi_handler { now := 0, i2c_result := 0 }
        { r0 := 64, r1 := 4, r2 := 0, r3 := 0, r12 := 7 } initKernelState =
      .ok (initKernelState, SyscallReturn.mkNone) := by
  have h := C10_no_current_frame { now := 0, i2c_result := 0 }
    { r0 := 64, r1 := 4, r2 := 0, r3 := 0, r12 := 7 } initKernelState rfl
  exact h.2.1 rfl

/-! ## C7: register then unregister -/

/-- The handle try_new hands out from the all-free initial state. -/
def pageC7 : L2SmallPageTableEntry :=
  { asid := some 0, virtual_address := 0, physical_address := BASE_ADDRESS,
    permissions := .Full }

/-- The page state right after that try_new: frame 0 marked used. -/
def pageStC7 : PageState :=
  { initPageState with
    used_pages := Function.update initPageState.used_pages 0 true }

/-- C7 counterexample: starting from the state right after try_new issued
the handle (its used bit set, its L2 slot fault — the state immediately
before register in the create_task path), register followed by unregister
clears the handle's used_pages bit, which register had not set; the
resulting state differs from the starting state, refuting the claim that
the round trip restores both L2 and used_pages for every handle and every
starting state. -/
theorem C7_counterexample :
    L2SmallPageTableEntry.try_new (some 0) initPageState = some (pageC7, pageStC7)
  ∧ pageStC7.used_pages 0 = true
  ∧ (pageC7.unregister (pageC7.register pageStC7)).used_pages 0 = false
  ∧ pageC7.unregister (pageC7.register pageStC7) ≠ pageStC7 := by
  refine ⟨rfl, rfl, rfl, ?_⟩
  intro heq
  have := congrArg (fun st => st.used_pages 0) heq
  simp only at this
  rw [show (pageC7.unregister (pageC7.register pageStC7)).used_pages 0 = false
      from rfl] at this
  rw [show pageStC7.used_pages 0 = true from rfl] at this
  exact Bool.false_ne_true this

/-- C7 (amended).  register(h) followed by unregister(h) sets the L2 entry
at h's virtual index to the fault entry and clears the used_pages bit of
h's physical frame, and leaves every other L2 entry and used bit exactly
as before register; the starting state is restored only in the special
case where that entry was already fault and that bit already clear. -/
theorem C7_register_unregister_amended (e : L2SmallPageTableEntry) (s : PageState) :
    e.unregister (e.register s) =
      { level2 := Function.update s.level2 e.vaIndex L2_FAULT_PAGE_TABLE_ENTRY,
        used_pages := Function.update s.used_pages e.frameIndex false } := by
  dsimp only [L2SmallPageTableEntry.register, L2SmallPageTableEntry.unregister]
  rw [Function.update_idem]

/-! ## C6: used_pages versus the L2 table -/

/-- C6 counterexample: the state after a single try_new (no register yet)
is reachable, has used_pages 0 = true, yet its L2 entry 0 is still the
fault entry — the bitmap and the table disagree. -/
theorem C6_counterexample :
    PageReachable pageStC7 [pageC7]
  ∧ pageStC7.used_pages 0 = true
  ∧ isSmallPage (pageStC7.level2 0) = false := by
  exact ⟨PageReachable.tryNew (some 0) PageReachable.init rfl, rfl, rfl⟩

/-- C6 (amended).  In every reachable state of the page subsystem the
used_pages bitmap and the L2 table need not agree — used_pages i can be
true while L2 i is fault, already after a single try_new — because every
handle the subsystem issues carries virtual address 0: all registers and
unregisters write L2 index 0 only, so every L2 entry at an index other
than 0 stays the fault entry in every reachable state. -/
theorem C6_l2_entries_amended (s : PageState) (hs : List L2SmallPageTableEntry)
    (hr : PageReachable s hs) :
    (∀ h ∈ hs, h.virtual_address = 0)
  ∧ ∀ i, i ≠ 0 → s.level2 i = L2_FAULT_PAGE_TABLE_ENTRY := by
  induction hr with
  | init =>
    exact ⟨by intro h hh; simp at hh, fun i _ => rfl⟩
  | tryNew a hr htn ih =>
    obtain ⟨i0, -, -, -, hpage, hs'⟩ := (try_new_spec _ _).2 _ _ htn
    refine ⟨?_, ?_⟩
    · intro h hh
      rcases List.mem_cons.mp hh with rfl | hmem
      · rw [hpage]
      · exact ih.1 h hmem
    · intro i hi
      rw [hs']
      exact ih.2 i hi
  | reg hr hmem ih =>
    refine ⟨ih.1, ?_⟩
    intro i hi
    have hva := ih.1 _ hmem
    dsimp only [L2SmallPageTableEntry.register]
    rw [Function.update_noteq]
    · exact ih.2 i hi
    · unfold L2SmallPageTableEntry.vaIndex
      rw [hva]
      simpa using hi
  | unreg hr hmem ih =>
    refine ⟨ih.1, ?_⟩
    intro i hi
    have hva := ih.1 _ hmem
    dsimp only [L2SmallPageTableEntry.unregister]
    rw [Function.update_noteq]
    · exact ih.2 i hi
    · unfold L2SmallPageTableEntry.vaIndex
      rw [hva]
      simpa using hi

theorem C6_l2_entries_amended_witness :
    pageStC7.level2 5 = L2_FAULT_PAGE_TABLE_ENTRY := by
  have hr : PageReachable pageStC7 [pageC7] :=
    PageReachable.tryNew (some 0) PageReachable.init rfl
  exact (C6_l2_entries_amended pageStC7 [pageC7] hr).2 5 (by decide)

/-- C5 witness state and application: try_new from the state with only
page 0 used allocates index 1. -/
theorem C5_try_new_amended_witness :
    L2SmallPageTableEntry.try_new (some 7) pageStC7 =
      some ({ asid := some 7, virtual_address := 0,
              physical_address := BASE_ADDRESS + (1 <<< PAGE_SIZE_BITS),
              permissions := .Full },
            { pageStC7 with
              used_pages := Function.update pageStC7.used_pages 1 true }) ∧
      pageStC7.used_pages 1 = false := by
  have hsome : L2SmallPageTableEntry.try_new (some 7) pageStC7 =
      some ({ asid := some 7, virtual_address := 0,
              physical_address := BASE_ADDRESS + (1 <<< PAGE_SIZE_BITS),
              permissions := .Full },
            { pageStC7 with
              used_pages := Function.update pageStC7.used_pages 1 true }) := by rfl
  obtain ⟨i, -, hfree, -, -, -⟩ := (C5_try_new_amended (some 7) pageStC7).2 _ _ hsome
  exact ⟨hsome, by rfl⟩

/-! ## C8: at most one Running task -/

theorem next_task_no_new_running {now : Nat} {s : Scheduler} {j : Nat}
    {s' : Scheduler} (h : s.next_task now = some (j, s')) :
    ∀ i, (s'.tasks i).state = .Running → (s.tasks i).state = .Running := by
  obtain ⟨-, hs'⟩ := next_task_some h
  intro i hri
  rw [hs'] at hri
  dsimp only at hri
  by_cases hij : i = j
  · subst hij
    rw [Function.update_same] at hri
    exact executable_state_running now _ hri
  · rwa [Function.update_noteq hij] at hri

theorem createTask_no_new_running {code : List Nat} {k : KernelState} {tid : Nat}
    {k' : KernelState} (h : createTask code k = some (tid, k')) :
    ∀ i, (k'.sched.tasks i).state = .Running → (k.sched.tasks i).state = .Running := by
  unfold createTask at h
  rcases hslot : k.sched.task_with_state .Terminated with _ | slot
  · rw [hslot] at h; exact absurd h (by simp)
  · rw [hslot] at h
    dsimp only at h
    rcases htn : L2SmallPageTableEntry.try_new (some (k.sched.tasks slot).id) k.pages
        with _ | ⟨page, ps⟩
    · rw [htn] at h; exact absurd h (by simp)
    · rw [htn] at h
      dsimp only at h
      simp only [Option.some.injEq, Prod.mk.injEq] at h
      obtain ⟨-, hk'⟩ := h
      intro i hri
      rw [← hk'] at hri
      dsimp only at hri
      by_cases hi : i = (k.sched.tasks slot).id
      · subst hi
        rw [Function.update_same] at hri
        exact absurd hri (by simp)
      · rwa [Function.update_noteq hi] at hri

theorem swi_exit_false_preserves {env : Env} {f : TrapFrame} {k k' : KernelState}
    {r : SyscallReturn} (h : swi_handler env f k = .ok (k', r))
    (hexit : r.exit = false) :
    k'.sched.current_index = k.sched.current_index ∧
      ∀ i, (k'.sched.tasks i).state = (k.sched.tasks i).state := by
  unfold swi_handler at h
  rcases hdec : decodeSyscall f with _ | sc
  · rw [hdec] at h; exact absurd h (by simp)
  · rw [hdec] at h
    cases sc with
    | Exit =>
      simp only [Except.ok.injEq, Prod.mk.injEq] at h
      rw [← h.2] at hexit
      exact absurd hexit (by simp [SyscallReturn.mkExit])
    | Yield sp pc u =>
      rcases u with _ | u' <;>
        (simp only [Except.ok.injEq, Prod.mk.injEq] at h
         rw [← h.2] at hexit
         exact absurd hexit (by simp [SyscallReturn.mkExit]))
    | Panic =>
      simp only [Except.ok.injEq, Prod.mk.injEq] at h
      rw [← h.2] at hexit
      exact absurd hexit (by simp [SyscallReturn.mkExit])
    | Millis =>
      simp only [Except.ok.injEq, Prod.mk.injEq] at h
      rw [← h.1]
      exact ⟨rfl, fun _ => rfl⟩
    | GpioRead pin =>
      simp only [Except.ok.injEq, Prod.mk.injEq] at h
      rw [← h.1]
      exact ⟨rfl, fun _ => rfl⟩
    | GpioWrite pin value =>
      simp only [Except.ok.injEq, Prod.mk.injEq] at h
      rw [← h.1]
      exact ⟨rfl, fun _ => rfl⟩
    | I2cWrite a p l =>
      simp only [Except.ok.injEq, Prod.mk.injEq] at h
      rw [← h.1]
      exact ⟨rfl, fun _ => rfl⟩
    | Alloc size align =>
      rcases hcur : k.sched.currentIdx with _ | c
      · rw [hcur] at h
        dsimp only at h
        simp only [Except.ok.injEq, Prod.mk.injEq] at h
        rw [← h.1]
        exact ⟨rfl, fun _ => rfl⟩
      · rw [hcur] at h
        dsimp only at h
        simp only [Except.ok.injEq, Prod.mk.injEq] at h
        rw [← h.1]
        refine ⟨rfl, fun i => ?_⟩
        dsimp only
        by_cases hic : i = c
        · subst hic; rw [Function.update_same]
        · rw [Function.update_noteq hic]
    | Dealloc ptr size align =>
      rcases hcur : k.sched.currentIdx with _ | c
      · rw [hcur] at h
        dsimp only at h
        simp only [Except.ok.injEq, Prod.mk.injEq] at h
        rw [← h.1]
        exact ⟨rfl, fun _ => rfl⟩
      · rw [hcur] at h
        dsimp only at h
        simp only [Except.ok.injEq, Prod.mk.injEq] at h
        rw [← h.1]
        refine ⟨rfl, fun i => ?_⟩
        dsimp only
        by_cases hic : i = c
        · subst hic; rw [Function.update_same]
        · rw [Function.update_noteq hic]

theorem swi_exit_true_no_running {env : Env} {f : TrapFrame} {k k' : KernelState}
    {r : SyscallReturn} (h : swi_handler env f k = .ok (k', r))
    (hexit : r.exit = true) {c : Nat}
    (hc : k.sched.current_index = some c)
    (hrun : (k.sched.tasks c).state = .Running)
    (huniq : ∀ i, (k.sched.tasks i).state = .Running → i = c) :
    ∀ i, (k'.sched.tasks i).state ≠ .Running := by
  have hcur : k.sched.currentIdx = some c := currentIdx_eq_some.mpr ⟨hc, hrun⟩
  unfold swi_handler at h
  rcases hdec : decodeSyscall f with _ | sc
  · rw [hdec] at h; exact absurd h (by simp)
  · rw [hdec] at h
    cases sc with
    | Exit =>
      rw [hcur] at h
      dsimp only [terminateTask] at h
      simp only [Except.ok.injEq, Prod.mk.injEq] at h
      obtain ⟨hk', -⟩ := h
      intro i hri
      rw [← hk'] at hri
      dsimp only [Scheduler.cycle] at hri
      by_cases hic : i = c
      · subst hic; rw [Function.update_same] at hri; exact absurd hri (by simp)
      · rw [Function.update_noteq hic] at hri
        exact hic (huniq i hri)
    | Yield sp pc u =>
      rcases u with _ | u' <;>
        (rw [hcur] at h
         dsimp only at h
         simp only [Except.ok.injEq, Prod.mk.injEq] at h
         obtain ⟨hk', -⟩ := h
         intro i hri
         rw [← hk'] at hri
         dsimp only [Scheduler.cycle] at hri
         by_cases hic : i = c
         · subst hic; rw [Function.update_same] at hri; exact absurd hri (by simp)
         · rw [Function.update_noteq hic] at hri
           exact hic (huniq i hri))
    | Panic =>
      rw [hcur] at h
      dsimp only [terminateTask] at h
      simp only [Except.ok.injEq, Prod.mk.injEq] at h
      obtain ⟨hk', -⟩ := h
      intro i hri
      rw [← hk'] at hri
      dsimp only [Scheduler.cycle] at hri
      by_cases hic : i = c
      · subst hic; rw [Function.update_same] at hri; exact absurd hri (by simp)
      · rw [Function.update_noteq hic] at hri
        exact hic (huniq i hri)
    | Millis =>
      simp only [Except.ok.injEq, Prod.mk.injEq] at h
      rw [← h.2] at hexit
      exact absurd hexit (by simp [SyscallReturn.mkValue])
    | GpioRead pin =>
      simp only [Except.ok.injEq, Prod.mk.injEq] at h
      rw [← h.2] at hexit
      exact absurd hexit (by simp [SyscallReturn.mkValue])
    | GpioWrite pin value =>
      simp only [Except.ok.injEq, Prod.mk.injEq] at h
      rw [← h.2] at hexit
      exact absurd hexit (by simp [SyscallReturn.mkNone])
    | I2cWrite a p l =>
      simp only [Except.ok.injEq, Prod.mk.injEq] at h
      rw [← h.2] at hexit
      exact absurd hexit (by simp [SyscallReturn.mkValue])
    | Alloc size align =>
      rw [hcur] at h
      dsimp only at h
      simp only [Except.ok.injEq, Prod.mk.injEq] at h
      rw [← h.2] at hexit
      exact absurd hexit (by simp [SyscallReturn.mkValue])
    | Dealloc ptr size align =>
      rw [hcur] at h
      dsimp only at h
      simp only [Except.ok.injEq, Prod.mk.injEq] at h
      rw [← h.2] at hexit
      exact absurd hexit (by simp [SyscallReturn.mkNone])

theorem kstep_modeInv {s1 s2 : SysState} (h : KStep s1 s2) (hinv : modeInv s1) :
    modeInv s2 := by
  cases h with
  | create code hc =>
    exact fun i hri => hinv i (createTask_no_new_running hc i hri)
  | switchDispatch now hs =>
    unfold switchStep at hs
    rcases hnt : Scheduler.next_task now _ with _ | ⟨idx, sched1⟩
    · rw [hnt] at hs; exact absurd hs (by simp)
    · rw [hnt] at hs
      dsimp only at hs
      have hpre : ∀ i, (sched1.tasks i).state ≠ .Running := fun i hri =>
        hinv i (next_task_no_new_running hnt i hri)
      rcases hst : (sched1.tasks (sched1.tasks idx).id).state with _ | _ | _ | u | _
      · rw [hst] at hs
        dsimp only at hs
        simp only [Prod.mk.injEq, Option.some.injEq] at hs
        obtain ⟨hk', -⟩ := hs
        refine ⟨(sched1.tasks idx).id, ?_, ?_, ?_⟩
        · rw [← hk']
        · rw [← hk']
          dsimp only
          rw [Function.update_same]
        · intro i hri
          rw [← hk'] at hri
          dsimp only at hri
          by_cases hic : i = (sched1.tasks idx).id
          · exact hic
          · rw [Function.update_noteq hic] at hri
            exact absurd hri (hpre i)
      · rw [hst] at hs
        dsimp only at hs
        simp only [Prod.mk.injEq] at hs
        exact absurd hs.2 (by simp)
      · rw [hst] at hs
        dsimp only at hs
        simp only [Prod.mk.injEq] at hs
        exact absurd hs.2 (by simp)
      · rw [hst] at hs
        dsimp only at hs
        simp only [Prod.mk.injEq] at hs
        exact absurd hs.2 (by simp)
      · rw [hst] at hs
        dsimp only at hs
        simp only [Prod.mk.injEq, Option.some.injEq] at hs
        obtain ⟨hk', -⟩ := hs
        refine ⟨(sched1.tasks idx).id, ?_, ?_, ?_⟩
        · rw [← hk']
        · rw [← hk']
          dsimp only
          rw [Function.update_same]
        · intro i hri
          rw [← hk'] at hri
          dsimp only at hri
          by_cases hic : i = (sched1.tasks idx).id
          · exact hic
          · rw [Function.update_noteq hic] at hri
            exact absurd hri (hpre i)
  | switchIdle now hs =>
    unfold switchStep at hs
    rcases hnt : Scheduler.next_task now _ with _ | ⟨idx, sched1⟩
    · rw [hnt] at hs
      simp only [Prod.mk.injEq] at hs
      rw [← hs.1]
      exact hinv
    · rw [hnt] at hs
      dsimp only at hs
      have hpre : ∀ i, (sched1.tasks i).state ≠ .Running := fun i hri =>
        hinv i (next_task_no_new_running hnt i hri)
      rcases hst : (sched1.tasks (sched1.tasks idx).id).state with _ | _ | _ | u | _
      · rw [hst] at hs
        dsimp only at hs
        simp only [Prod.mk.injEq] at hs
        exact absurd hs.2 (by simp)
      · rw [hst] at hs
        dsimp only at hs
        simp only [Prod.mk.injEq] at hs
        rw [← hs.1]
        exact hpre
      · rw [hst] at hs
        dsimp only at hs
        simp only [Prod.mk.injEq] at hs
        rw [← hs.1]
        exact hpre
      · rw [hst] at hs
        dsimp only at hs
        simp only [Prod.mk.injEq] at hs
        rw [← hs.1]
        exact hpre
      · rw [hst] at hs
        dsimp only at hs
        simp only [Prod.mk.injEq] at hs
        exact absurd hs.2 (by simp)
  | svcExit env f hok hexit =>
    obtain ⟨c, hc, hrun, huniq⟩ := hinv
    exact swi_exit_true_no_running hok hexit hc hrun huniq
  | svcRet env f hok hexit =>
    obtain ⟨hci', hst'⟩ := swi_exit_false_preserves hok hexit
    obtain ⟨c, hc, hrun, huniq⟩ := hinv
    exact ⟨c, by rw [hci', hc], by rw [hst' c]; exact hrun,
      fun i hri => huniq i (by rw [← hst' i]; exact hri)⟩

theorem modeInv_init : modeInv ⟨initKernelState, .kernelLoop⟩ :=
  fun _ h => TaskState.noConfusion h

theorem sysReachable_modeInv (s : SysState) (h : SysReachable s) : modeInv s := by
  unfold SysReachable at h
  induction h with
  | refl => exact modeInv_init
  | tail hsteps hstep ih => exact kstep_modeInv hstep ih

/-- C8.  In every state reachable through boot, task creation, syscall
handling (Exit, Yield, Panic and the non-rescheduling calls) and scheduler
switches, at most one task in the task table has state Running. -/
theorem C8_at_most_one_running (s : SysState) (h : SysReachable s) :
    atMostOneRunning s.k.sched := by
  have hinv := sysReachable_modeInv s h
  rcases s with ⟨k, mode⟩
  cases mode with
  | kernelLoop => exact fun i j hi _ => absurd hi (hinv i)
  | user =>
    obtain ⟨c, -, -, huniq⟩ := hinv
    exact fun i j hi hj => by rw [huniq i hi, huniq j hj]

theorem C8_at_most_one_running_witness :
    atMostOneRunning (switchStep 5 kC4).1.sched := by
  have h1 : KStep ⟨initKernelState, .kernelLoop⟩ ⟨kC4, .kernelLoop⟩ :=
    KStep.create [1, 2, 3] (by rfl)
  have heq : switchStep 5 kC4 = ((switchStep 5 kC4).1, some 0) :=
    Prod.ext rfl (by rfl)
  have h2 : KStep ⟨kC4, .kernelLoop⟩ ⟨(switchStep 5 kC4).1, .user⟩ :=
    KStep.switchDispatch 5 heq
  exact C8_at_most_one_running ⟨(switchStep 5 kC4).1, .user⟩
    ((Relation.ReflTransGen.refl.tail h1).tail h2)

end Fenix
